import Mathlib

/-!
Verification of the AETRON wallet extension's key-management and signing core.

The definitions below are a shallow embedding of the TypeScript sources:
* the crypto module (`src/shared/wallet/crypto`, mirrored in
  `src/src/shared/types/index.ts`): `encrypt` / `decrypt`;
* `WalletService` (`unlockWallet`, `deleteWallet`, `changePassword`, ...);
* `ConnectionManager` (`wrapSignature`, the signing pipeline, reconnect backoff);
* `DappHandler` (pending approvals and their 5-minute timeout).

External platform collaborators (Web Crypto's PBKDF2 and AES-256-GCM, the
polkadot keyring, the chain RPC) are modelled as ideal primitives or as explicit
oracle parameters; everything written by the repository itself is translated
statement by statement.
-/

namespace Aetron

/-- Byte strings (`Uint8Array` contents) are lists of naturals. -/
abbrev Bytes := List Nat

/-! ## Crypto module

From `src/src/shared/types/index.ts` (the `// Cryptographic utilities` section).
`crypto.subtle`'s PBKDF2 and AES-256-GCM are external Web Crypto primitives:
PBKDF2 is modelled as an ideal (injective) key-derivation function whose output
records its inputs, and AES-256-GCM as an ideal authenticated cipher whose
ciphertext records key, nonce and message and whose decryption succeeds exactly
when key and nonce match.  The base64 transport encoding
(`uint8ArrayToBase64` / `base64ToUint8Array`, mutually inverse via the external
`btoa`/`atob`) is modelled as the identity embedding, so the package carries the
salt and iv as byte lists and the ciphertext as the ideal-cipher value. -/

/-- `const PBKDF2_ITERATIONS = 900000`. -/
def PBKDF2_ITERATIONS : Nat := 900000

/-- `const SALT_BYTES = 32`. -/
def SALT_BYTES : Nat := 32

/-- `const IV_BYTES = 12`. -/
def IV_BYTES : Nat := 12

/-- Ideal model of a PBKDF2-derived AES key: the derived key is determined by,
and determines, the password, salt and iteration count. -/
structure DerivedKey where
  password : String
  salt : Bytes
  iterations : Nat
deriving DecidableEq, Repr

/-- `deriveKey(password, salt, iterations)` (Web Crypto PBKDF2, ideal model). -/
def deriveKey (password : String) (salt : Bytes) (iterations : Nat) : DerivedKey :=
  ⟨password, salt, iterations⟩

/-- Ideal AES-256-GCM ciphertext: records the key, the nonce and the encrypted
message bytes (the authentication tag is implicit in the ideal model). -/
structure GcmCiphertext where
  key : DerivedKey
  iv : Bytes
  msg : Bytes
deriving DecidableEq, Repr

/-- `crypto.subtle.encrypt({name: 'AES-GCM', iv}, key, data)` — ideal AEAD. -/
def aesGcmEncrypt (key : DerivedKey) (iv : Bytes) (msg : Bytes) : GcmCiphertext :=
  ⟨key, iv, msg⟩

/-- `crypto.subtle.decrypt({name: 'AES-GCM', iv}, key, ciphertext)` — ideal
AEAD: succeeds exactly when key and nonce match the ones used to encrypt;
any mismatch yields the single generic failure (`none`). -/
def aesGcmDecrypt (key : DerivedKey) (iv : Bytes) (c : GcmCiphertext) : Option Bytes :=
  if c.key = key ∧ c.iv = iv then some c.msg else none

/-- `new TextEncoder().encode(data)`: modelled as the (injective) codepoint
encoding of the string. -/
def textEncode (s : String) : Bytes :=
  s.data.map Char.toNat

/-- `new TextDecoder().decode(buffer)`: inverse of `textEncode`. -/
def textDecode (b : Bytes) : String :=
  ⟨b.map Char.ofNat⟩

/-- `kdfParams: { iterations, hash }` of an encrypted package. -/
structure KdfParams where
  iterations : Nat
  hash : String
deriving DecidableEq, Repr

/-- The package returned by `encrypt`:
`{ciphertext, iv, salt, algorithm, kdf, kdfParams}`.  `decrypt` treats
`kdfParams` as optional, hence the `Option`. -/
structure EncryptedPackage where
  ciphertext : GcmCiphertext
  iv : Bytes
  salt : Bytes
  algorithm : String
  kdf : String
  kdfParams : Option KdfParams
deriving DecidableEq, Repr

/-- `encrypt(data, password)`.  The fresh randomness drawn by
`crypto.getRandomValues` (32-byte salt, 12-byte iv) is passed explicitly. -/
def encrypt (data password : String) (salt iv : Bytes) : EncryptedPackage :=
  let dataBytes := textEncode data
  let key := deriveKey password salt PBKDF2_ITERATIONS
  let encryptedBytes := aesGcmEncrypt key iv dataBytes
  { ciphertext := encryptedBytes
    iv := iv
    salt := salt
    algorithm := "aes-256-gcm"
    kdf := "pbkdf2"
    kdfParams := some ⟨PBKDF2_ITERATIONS, "SHA-256"⟩ }

/-- `decrypt(encryptedData, password)`.  Mirrors
`const iterations = encryptedData.kdfParams?.iterations || PBKDF2_ITERATIONS`
(JavaScript `||`: an absent — or zero — iteration count falls back to the
default).  Any failure is the single generic `none`. -/
def decrypt (p : EncryptedPackage) (password : String) : Option String :=
  let iterations :=
    match p.kdfParams with
    | some kp => if kp.iterations = 0 then PBKDF2_ITERATIONS else kp.iterations
    | none => PBKDF2_ITERATIONS
  let key := deriveKey password p.salt iterations
  match aesGcmDecrypt key p.iv p.ciphertext with
  | some bytes => some (textDecode bytes)
  | none => none

theorem textDecode_textEncode (s : String) : textDecode (textEncode s) = s := by
  simp only [textDecode, textEncode, List.map_map]
  have : ∀ l : List Char, l.map (Char.ofNat ∘ Char.toNat) = l := by
    intro l
    induction l with
    | nil => rfl
    | cons c cs ih => simp [ih, Char.ofNat_toNat]
  rw [this]

/-- Round-trip law of the crypto module, shared by several results below. -/
theorem decrypt_encrypt_same (p pw : String) (salt iv : Bytes) :
    decrypt (encrypt p pw salt iv) pw = some p := by
  simp [encrypt, decrypt, aesGcmEncrypt, aesGcmDecrypt, PBKDF2_ITERATIONS,
    textDecode_textEncode]

/-! ### Claims C1 and C2: the round-trip and wrong-password laws -/

/-- C1: for every plaintext `p` and password `pw`,
`decrypt(encrypt(p, pw), pw)` returns `p`, whatever salt/iv the two fresh
32-byte and 12-byte random draws produced; and the salt and iv fields of the
package are exactly the fresh draws, so two calls whose random draws differ
produce packages with different salt and different iv fields (encryption is
not deterministic given identical inputs). -/
theorem aetron_C1_encrypt_decrypt_roundtrip
    (p pw : String) (salt iv salt' iv' : Bytes)
    (hsl : salt.length = SALT_BYTES) (hil : iv.length = IV_BYTES)
    (hs : salt' ≠ salt) (hi : iv' ≠ iv) :
    decrypt (encrypt p pw salt iv) pw = some p ∧
    (encrypt p pw salt iv).salt = salt ∧
    (encrypt p pw salt iv).iv = iv ∧
    (encrypt p pw salt iv).salt.length = 32 ∧
    (encrypt p pw salt iv).iv.length = 12 ∧
    (encrypt p pw salt' iv').salt ≠ (encrypt p pw salt iv).salt ∧
    (encrypt p pw salt' iv').iv ≠ (encrypt p pw salt iv).iv := by
  refine ⟨decrypt_encrypt_same p pw salt iv, rfl, rfl, ?_, ?_, hs, hi⟩
  · simpa [encrypt, SALT_BYTES] using hsl
  · simpa [encrypt, IV_BYTES] using hil

/-- Witness for C1 at a concrete plaintext, password and two distinct draws. -/
theorem aetron_C1_encrypt_decrypt_roundtrip_witness :
    decrypt (encrypt "hello" "pw" (List.replicate 32 7) (List.replicate 12 3)) "pw"
      = some "hello" ∧
    (encrypt "hello" "pw" (List.replicate 32 7) (List.replicate 12 3)).salt
      = List.replicate 32 7 :=
  have h := aetron_C1_encrypt_decrypt_roundtrip "hello" "pw"
    (List.replicate 32 7) (List.replicate 12 3)
    (List.replicate 32 8) (List.replicate 12 4)
    (by decide) (by decide) (by decide) (by decide)
  ⟨h.1, h.2.1⟩

/-- C2: decrypting a package produced under password `pw` with any different
password `pw2` fails with the generic decryption failure (`none`): it never
succeeds and never returns a different plaintext.  Moreover the failure is
indistinguishable from the failure on a corrupted ciphertext: replacing the
package's ciphertext by any value not authenticated under the derived key and
nonce yields the very same outcome. -/
theorem aetron_C2_wrong_password_fails
    (p pw pw2 : String) (salt iv : Bytes) (h : pw2 ≠ pw)
    (c' : GcmCiphertext)
    (hc : c'.key ≠ deriveKey pw salt PBKDF2_ITERATIONS ∨ c'.iv ≠ iv) :
    decrypt (encrypt p pw salt iv) pw2 = none ∧
    decrypt { encrypt p pw salt iv with ciphertext := c' } pw = none ∧
    decrypt (encrypt p pw salt iv) pw2
      = decrypt { encrypt p pw salt iv with ciphertext := c' } pw := by
  have h1 : decrypt (encrypt p pw salt iv) pw2 = none := by
    have hne : ¬ pw = pw2 := fun hh => h hh.symm
    simp [encrypt, decrypt, aesGcmEncrypt, aesGcmDecrypt, deriveKey, hne]
  have h2 : decrypt { encrypt p pw salt iv with ciphertext := c' } pw = none := by
    have hkey : ¬ (c'.key = deriveKey pw salt PBKDF2_ITERATIONS ∧ c'.iv = iv) := by
      rintro ⟨hk, hiv⟩
      rcases hc with hck | hci
      · exact hck hk
      · exact hci hiv
    simp only [encrypt, decrypt, aesGcmDecrypt, deriveKey, PBKDF2_ITERATIONS] at hkey ⊢
    rw [if_neg (by simpa using hkey)]
  exact ⟨h1, h2, h1.trans h2.symm⟩

/-- Witness for C2 at concrete passwords and a concretely corrupted package. -/
theorem aetron_C2_wrong_password_fails_witness :
    decrypt (encrypt "secret" "pw" (List.replicate 32 7) (List.replicate 12 3)) "pw2"
      = none :=
  (aetron_C2_wrong_password_fails "secret" "pw" "pw2"
    (List.replicate 32 7) (List.replicate 12 3) (by decide)
    ⟨⟨"other", [], 1⟩, [], []⟩ (by left; decide)).1

/-! ## Connection manager and signing pipeline

From `src/src/background/connectionManager.ts`.  The `@polkadot/api` chain
connection is an external collaborator; the pipeline is embedded over an
explicit `ChainApi` oracle supplying the outcome of each external step, while
everything the file itself computes (the `MultiSignature` wrapping, the
not-connected guard, the try/catch conversion to structured results, the
extrinsic-name probing and fallbacks, the reconnect backoff arithmetic) is
translated directly. -/

/-- `const SR25519_TYPE_PREFIX = 0x01` — the one-byte scheme discriminator. -/
def sr25519TypeByte : Nat := 0x01

/-- `Uint8Array.prototype.set(src, offset)` on a typed array: overwrite
`dest` from position `offset` with the bytes of `src`. -/
def typedArraySet : Bytes → Bytes → Nat → Bytes
  | [], _, _ => []
  | dest, [], _ => dest
  | _ :: ds, s :: ss, 0 => s :: typedArraySet ds ss 0
  | d :: ds, src, n + 1 => d :: typedArraySet ds src n

/-- `wrapSignature(rawSignature)`: a zero-filled 65-byte array whose byte 0 is
the Sr25519 discriminator and whose bytes from offset 1 are the raw
signature. -/
def wrapSignature (rawSignature : Bytes) : Bytes :=
  typedArraySet ((List.replicate 65 0).set 0 sr25519TypeByte) rawSignature 1

/-- An unsigned chain call (`api.tx...`): opaque method description. -/
structure Tx where
  method : String
  args : List String
deriving DecidableEq, Repr

/-- The transaction after `tx.addSignature(address, sig, payload)`. -/
structure SignedTx where
  tx : Tx
  address : String
  signature : Bytes
deriving DecidableEq, Repr

/-- The structured pipeline outcome `{success, hash?, error?}`. -/
structure TxResult where
  success : Bool
  hash : Option String
  error : Option String
deriving DecidableEq, Repr

/-- The caller-supplied signer capability `{address, sign}`; `sign` may fail
(a rejected promise), hence `Except`. -/
structure Signer where
  address : String
  sign : Bytes → Except String Bytes

/-- `tx.addSignature(signer.address, wrapSignature(rawSignature), payload)`:
attaches the combined signature to the transaction. -/
def addSignature (tx : Tx) (address : String) (signature : Bytes) : SignedTx :=
  ⟨tx, address, signature⟩

/-- Oracle for the external chain node reached through `this.api`: nonce
fetches and submissions may fail (transport), payload serialisation and call
construction are chain-side functions, and the duck-typed extrinsic probes
(`aetensorModule?.addStake ?? ... ?? subtensorModule?.addStake`) resolve to
`some` constructor or `none`. -/
structure ChainApi where
  accountNextIndex : String → Except String Nat
  signerPayloadRaw : Tx → Nat → Bytes
  submitAndWait : SignedTx → TxResult
  sendForHash : SignedTx → Except String String
  balancesTransferKeepAlive : String → Nat → Tx
  stakeAddTx : Option (String → Nat → Nat → Tx)
  stakeRemoveTx : Option (String → Nat → Nat → Tx)
  stakeMoveTx : Option (String → String → Nat → Nat → Tx)
  stakeAddLimitTx : Option (String → Nat → Nat → Nat → Bool → Tx)

/-- The `try { ... } catch (error) { return { success: false, error } }`
boundary shared by every pipeline method: any exception inside the body is
converted into a structured failure. -/
def catchToResult (body : Except String TxResult) : TxResult :=
  match body with
  | .ok r => r
  | .error e => { success := false, hash := none, error := some e }

namespace ConnectionManager

/-- `ConnectionManager.transfer(signer, to, amount)`.  Note that
`if (!this.api) throw new Error('Not connected')` sits before the `try`
block, so in the not-connected state the method raises (`Except.error`)
instead of returning a structured result. -/
def transfer (api? : Option ChainApi) (signer : Signer) (dest : String)
    (amount : Nat) : Except String TxResult :=
  match api? with
  | none => .error "Not connected"
  | some api =>
    .ok (catchToResult (do
      let tx := api.balancesTransferKeepAlive dest amount
      let nonce ← api.accountNextIndex signer.address
      let data := api.signerPayloadRaw tx nonce
      let rawSignature ← signer.sign data
      let signed := addSignature tx signer.address (wrapSignature rawSignature)
      pure (api.submitAndWait signed)))

/-- `ConnectionManager.addStake(signer, hotkey, netuid, amount)`. -/
def addStake (api? : Option ChainApi) (signer : Signer) (hotkey : String)
    (netuid amount : Nat) : Except String TxResult :=
  match api? with
  | none => .error "Not connected"
  | some api =>
    .ok (catchToResult (do
      match api.stakeAddTx with
      | none => throw "Staking not available on this network"
      | some mk =>
        let tx := mk hotkey netuid amount
        let nonce ← api.accountNextIndex signer.address
        let data := api.signerPayloadRaw tx nonce
        let rawSignature ← signer.sign data
        let signed := addSignature tx signer.address (wrapSignature rawSignature)
        pure (api.submitAndWait signed)))

/-- `ConnectionManager.removeStake(signer, hotkey, netuid, amount)`. -/
def removeStake (api? : Option ChainApi) (signer : Signer) (hotkey : String)
    (netuid amount : Nat) : Except String TxResult :=
  match api? with
  | none => .error "Not connected"
  | some api =>
    .ok (catchToResult (do
      match api.stakeRemoveTx with
      | none => throw "Unstaking not available on this network"
      | some mk =>
        let tx := mk hotkey netuid amount
        let nonce ← api.accountNextIndex signer.address
        let data := api.signerPayloadRaw tx nonce
        let rawSignature ← signer.sign data
        let signed := addSignature tx signer.address (wrapSignature rawSignature)
        pure (api.submitAndWait signed)))

/-- `ConnectionManager.moveStake(signer, srcHotkey, destHotkey, netuid, amount)`. -/
def moveStake (api? : Option ChainApi) (signer : Signer)
    (srcHotkey destHotkey : String) (netuid amount : Nat) :
    Except String TxResult :=
  match api? with
  | none => .error "Not connected"
  | some api =>
    .ok (catchToResult (do
      match api.stakeMoveTx with
      | none => throw "Move stake not available on this network"
      | some mk =>
        let tx := mk srcHotkey destHotkey netuid amount
        let nonce ← api.accountNextIndex signer.address
        let data := api.signerPayloadRaw tx nonce
        let rawSignature ← signer.sign data
        let signed := addSignature tx signer.address (wrapSignature rawSignature)
        pure (api.submitAndWait signed)))

/-- `ConnectionManager.addStakeLimit(...)`: if the limit extrinsic is not
available it falls back to the plain `addStake` (inside the `try`); on the
limit path the transaction is submitted with `tx.send()` and the hash
returned. -/
def addStakeLimit (api? : Option ChainApi) (signer : Signer) (hotkey : String)
    (netuid amount limitPrice : Nat) (allowPartial : Bool) :
    Except String TxResult :=
  match api? with
  | none => .error "Not connected"
  | some api =>
    .ok (catchToResult (do
      match api.stakeAddLimitTx with
      | none =>
        match addStake (some api) signer hotkey netuid amount with
        | .ok r => pure r
        | .error e => throw e
      | some mk =>
        let tx := mk hotkey netuid amount limitPrice allowPartial
        let nonce ← api.accountNextIndex signer.address
        let data := api.signerPayloadRaw tx nonce
        let rawSignature ← signer.sign data
        let signed := addSignature tx signer.address (wrapSignature rawSignature)
        let hash ← api.sendForHash signed
        pure { success := true, hash := some hash, error := none }))

end ConnectionManager

/-- `typedArraySet` steps over the head of the destination while the offset
is positive. -/
theorem typedArraySet_nil (ds : Bytes) (n : Nat) :
    typedArraySet ds [] n = ds := by
  cases ds <;> simp [typedArraySet]

/-- `typedArraySet` steps over the head of the destination while the offset
is positive. -/
theorem typedArraySet_cons_succ (d : Nat) (ds src : Bytes) (n : Nat) :
    typedArraySet (d :: ds) src (n + 1) = d :: typedArraySet ds src n := by
  cases src with
  | nil => simp [typedArraySet, typedArraySet_nil]
  | cons s ss => rfl

/-- `typedArraySet` at offset 0 copies the source over the head of the
destination. -/
theorem typedArraySet_zero (src : Bytes) :
    ∀ dest : Bytes, src.length ≤ dest.length →
      typedArraySet dest src 0 = src ++ dest.drop src.length := by
  induction src with
  | nil => intro dest _; cases dest <;> rfl
  | cons s ss ih =>
    intro dest hlen
    cases dest with
    | nil => simp at hlen
    | cons d ds =>
      simp only [typedArraySet, List.length_cons, List.drop_succ_cons,
        List.cons_append, List.cons.injEq, true_and]
      exact ih ds (by simpa using hlen)

/-! ### Claim C4: the combined signature -/

/-- C4: for a 64-byte raw signature, the combined signature is exactly 65
bytes: byte 0 is the fixed Sr25519 scheme discriminator `0x01` and bytes 1–64
are the raw signature unchanged; and `addSignature` attaches exactly this
combined signature to the transaction. -/
theorem aetron_C4_wrapped_signature (raw : Bytes) (hlen : raw.length = 64) :
    wrapSignature raw = sr25519TypeByte :: raw ∧
    (wrapSignature raw).length = 65 ∧
    (wrapSignature raw).head? = some sr25519TypeByte ∧
    (wrapSignature raw).drop 1 = raw ∧
    (∀ (tx : Tx) (addr : String),
      (addSignature tx addr (wrapSignature raw)).signature
        = sr25519TypeByte :: raw) := by
  have hset : (List.replicate 65 0).set 0 sr25519TypeByte
      = sr25519TypeByte :: List.replicate 64 0 := rfl
  have hwrap : wrapSignature raw = sr25519TypeByte :: raw := by
    unfold wrapSignature
    rw [hset, typedArraySet_cons_succ,
      typedArraySet_zero raw (List.replicate 64 0) (by simp [hlen]), hlen]
    simp
  refine ⟨hwrap, ?_, ?_, ?_, fun tx addr => ?_⟩
  · rw [hwrap]; simp [hlen]
  · rw [hwrap]; rfl
  · rw [hwrap]; rfl
  · rw [hwrap]; rfl

/-- Witness for C4 at a concrete 64-byte raw signature. -/
theorem aetron_C4_wrapped_signature_witness :
    wrapSignature (List.replicate 64 9) = sr25519TypeByte :: List.replicate 64 9 ∧
    (wrapSignature (List.replicate 64 9)).length = 65 :=
  have h := aetron_C4_wrapped_signature (List.replicate 64 9) (by decide)
  ⟨h.1, h.2.1⟩

/-! ### Claim C5: structured results of the signing pipeline (corrected)

Each pipeline method starts with `if (!this.api) throw new Error('Not
connected')` placed before its `try` block, so in the not-connected state the
methods raise instead of returning a structured result; once connected, every
outcome — including every failure inside the `try` body — is the structured
`{success, hash?, error?}`. -/

/-- C5 counterexample: in the not-connected state, `transfer` raises the
`'Not connected'` error past the pipeline's boundary instead of returning a
structured result — refuting the claim at this concrete input. -/
theorem aetron_C5_counterexample :
    ConnectionManager.transfer none
      ⟨"5Faddr", fun _ => .ok (List.replicate 64 0)⟩ "5Fdest" 1
      = .error "Not connected" := rfl

/-- C5 (amended): whenever the manager is connected (`api` present), every
signing-pipeline operation returns a structured result `{success, hash?,
error?}` and never raises, whatever the signer and the chain oracles do;
in the not-connected state every operation raises the `'Not connected'`
error (which only the outer message-router boundary converts). -/
theorem aetron_C5_structured_results (api : ChainApi) (signer : Signer)
    (dest hotkey srcHotkey destHotkey : String)
    (netuid amount limitPrice : Nat) (allowPartial : Bool) :
    (∃ r, ConnectionManager.transfer (some api) signer dest amount = .ok r) ∧
    (∃ r, ConnectionManager.addStake (some api) signer hotkey netuid amount
      = .ok r) ∧
    (∃ r, ConnectionManager.removeStake (some api) signer hotkey netuid amount
      = .ok r) ∧
    (∃ r, ConnectionManager.moveStake (some api) signer srcHotkey destHotkey
      netuid amount = .ok r) ∧
    (∃ r, ConnectionManager.addStakeLimit (some api) signer hotkey netuid
      amount limitPrice allowPartial = .ok r) ∧
    ConnectionManager.transfer none signer dest amount
      = .error "Not connected" ∧
    ConnectionManager.addStake none signer hotkey netuid amount
      = .error "Not connected" ∧
    ConnectionManager.removeStake none signer hotkey netuid amount
      = .error "Not connected" ∧
    ConnectionManager.moveStake none signer srcHotkey destHotkey netuid amount
      = .error "Not connected" ∧
    ConnectionManager.addStakeLimit none signer hotkey netuid amount limitPrice
      allowPartial = .error "Not connected" :=
  ⟨⟨_, rfl⟩, ⟨_, rfl⟩, ⟨_, rfl⟩, ⟨_, rfl⟩, ⟨_, rfl⟩, rfl, rfl, rfl, rfl, rfl⟩

/-! ### Claim C8: reconnect backoff -/

/-- The reconnect-relevant fields of `ConnectionManager`:
`reconnectAttempts`, `maxReconnectAttempts` (initialised to 5) and
`currentNetwork`. -/
structure ConnState where
  reconnectAttempts : Nat
  maxReconnectAttempts : Nat
  currentNetwork : Option String
deriving DecidableEq, Repr

/-- `handleDisconnect()`: if fewer than `maxReconnectAttempts` consecutive
failures have been recorded and a target network is set, increments the
counter and schedules a reconnect after `min(2000 * attempt, 30000)` ms;
otherwise schedules nothing.  Returns the new state and the scheduled delay,
if any. -/
def handleDisconnect (st : ConnState) : ConnState × Option Nat :=
  if st.reconnectAttempts < st.maxReconnectAttempts ∧ st.currentNetwork.isSome
  then
    let attempt := st.reconnectAttempts + 1
    ({ st with reconnectAttempts := attempt },
      some (min (2000 * attempt) 30000))
  else (st, none)

/-- The successful tail of `connect()`:
`this.reconnectAttempts = 0`. -/
def connectSuccessReset (st : ConnState) : ConnState :=
  { st with reconnectAttempts := 0 }

/-- The delays recorded over `n` consecutive unexpected disconnects with no
intervening successful connect. -/
def recordedDelays : ConnState → Nat → List Nat
  | _, 0 => []
  | st, n + 1 =>
    match handleDisconnect st with
    | (st', some d) => d :: recordedDelays st' n
    | (_, none) => recordedDelays st n

theorem recordedDelays_closed (n : Nat) : ∀ st : ConnState,
    recordedDelays st n =
      if st.currentNetwork.isSome then
        (List.range' (st.reconnectAttempts + 1)
          (min n (st.maxReconnectAttempts - st.reconnectAttempts))).map
          (fun a => min (2000 * a) 30000)
      else [] := by
  induction n with
  | zero => intro st; simp [recordedDelays]
  | succ n ih =>
    intro st
    by_cases hnet : st.currentNetwork.isSome
    · by_cases hlt : st.reconnectAttempts < st.maxReconnectAttempts
      · have hd : handleDisconnect st
            = ({ st with reconnectAttempts := st.reconnectAttempts + 1 },
              some (min (2000 * (st.reconnectAttempts + 1)) 30000)) := by
          simp [handleDisconnect, hlt, hnet]
        simp only [recordedDelays, hd]
        rw [ih]
        simp only [hnet, if_pos]
        have hmm : min (n + 1)
            (st.maxReconnectAttempts - st.reconnectAttempts)
            = (min n (st.maxReconnectAttempts - (st.reconnectAttempts + 1)))
              + 1 := by omega
        rw [hmm, List.range'_succ]
        simp
      · have hd : handleDisconnect st = (st, none) := by
          simp [handleDisconnect, hlt]
        simp only [recordedDelays, hd]
        rw [ih st]
        have hz : st.maxReconnectAttempts - st.reconnectAttempts = 0 := by
          omega
        simp [hnet, hz]
    · have hd : handleDisconnect st = (st, none) := by
        simp [handleDisconnect, hnet]
      simp only [recordedDelays, hd]
      rw [ih st]
      simp [hnet]

theorem chain'_min_backoff (k : Nat) : ∀ s : Nat,
    List.Chain' (· ≤ ·)
      ((List.range' s k).map (fun a => min (2000 * a) 30000)) := by
  induction k with
  | zero => intro s; simp
  | succ k ih =>
    intro s
    rw [List.range'_succ, List.map_cons, List.chain'_cons']
    refine ⟨?_, ih (s + 1)⟩
    intro y hy
    cases k with
    | zero => simp at hy
    | succ k =>
      rw [List.range'_succ, List.map_cons] at hy
      simp only [List.head?_cons, Option.mem_def, Option.some.injEq] at hy
      subst hy
      omega

/-- C8: on each unexpected disconnect, the scheduled reconnect delay is
`min(2000 * attempt, 30000)` for the incremented consecutive-failure counter;
recorded delays over consecutive failures are non-decreasing and never exceed
30000 ms; once the counter has reached 5 (the `maxReconnectAttempts` value) no
further reconnect is scheduled, and at most `5 - attempts` more delays are
ever recorded; a successful `connect()` resets the counter to 0. -/
theorem aetron_C8_reconnect_backoff :
    (∀ st : ConnState, st.reconnectAttempts < st.maxReconnectAttempts →
      st.currentNetwork.isSome →
      handleDisconnect st
        = ({ st with reconnectAttempts := st.reconnectAttempts + 1 },
          some (min (2000 * (st.reconnectAttempts + 1)) 30000))) ∧
    (∀ (st : ConnState) (n : Nat), ∀ d ∈ recordedDelays st n, d ≤ 30000) ∧
    (∀ (st : ConnState) (n : Nat),
      List.Chain' (· ≤ ·) (recordedDelays st n)) ∧
    (∀ st : ConnState, st.maxReconnectAttempts ≤ st.reconnectAttempts →
      handleDisconnect st = (st, none)) ∧
    (∀ (st : ConnState) (n : Nat), st.maxReconnectAttempts = 5 →
      (recordedDelays st n).length ≤ 5 - st.reconnectAttempts) ∧
    (∀ st : ConnState, (connectSuccessReset st).reconnectAttempts = 0) := by
  refine ⟨?_, ?_, ?_, ?_, ?_, fun st => rfl⟩
  · intro st hlt hnet
    simp [handleDisconnect, hlt, hnet]
  · intro st n d hd
    rw [recordedDelays_closed] at hd
    by_cases hnet : st.currentNetwork.isSome
    · simp only [hnet, if_pos, List.mem_map] at hd
      obtain ⟨a, -, ha⟩ := hd
      omega
    · simp [hnet] at hd
  · intro st n
    rw [recordedDelays_closed]
    by_cases hnet : st.currentNetwork.isSome
    · simp only [hnet, if_pos]
      exact chain'_min_backoff _ _
    · simp [hnet]
  · intro st hge
    simp [handleDisconnect, Nat.not_lt.mpr hge]
  · intro st n hmax
    rw [recordedDelays_closed]
    by_cases hnet : st.currentNetwork.isSome
    · simp only [hnet, if_pos, List.length_map, List.length_range']
      omega
    · simp [hnet]

/-- Witness for C8 at a concrete state: from a fresh counter the first delay
is 2000 ms, and with the counter at the cap nothing is scheduled. -/
theorem aetron_C8_reconnect_backoff_witness :
    handleDisconnect ⟨0, 5, some "finney"⟩
      = (⟨1, 5, some "finney"⟩, some 2000) ∧
    handleDisconnect ⟨5, 5, some "finney"⟩ = (⟨5, 5, some "finney"⟩, none) ∧
    (recordedDelays ⟨0, 5, some "finney"⟩ 9).length ≤ 5 := by
  refine ⟨?_, ?_, ?_⟩
  · have h := aetron_C8_reconnect_backoff.1 ⟨0, 5, some "finney"⟩
      (by decide) (by decide)
    simpa using h
  · exact aetron_C8_reconnect_backoff.2.2.2.1 ⟨5, 5, some "finney"⟩ (by decide)
  · simpa using aetron_C8_reconnect_backoff.2.2.2.2.1
      ⟨0, 5, some "finney"⟩ 9 rfl

/-! ## Wallet service

From `src/unnamed/part_004` (`WalletService`).  JavaScript `Map`s are modelled
as association lists with `set`/`get`/`delete` lookup semantics; the polkadot
`Keyring` is an external collaborator modelled by the free constructors of
`KeyringPair`, recording the secret the pair was derived from. -/

/-- `Map.prototype.get`: the value stored at `k`, if any. -/
def lookupA {κ α : Type} [BEq κ] (m : List (κ × α)) (k : κ) : Option α :=
  (m.find? (fun p => p.1 == k)).map (·.2)

/-- `Map.prototype.set`: store `v` at `k` (lookup-equivalent model). -/
def insertA {κ α : Type} [BEq κ] (m : List (κ × α)) (k : κ) (v : α) :
    List (κ × α) :=
  (k, v) :: m.filter (fun p => !(p.1 == k))

/-- `Map.prototype.delete`. -/
def eraseA {κ α : Type} [BEq κ] (m : List (κ × α)) (k : κ) : List (κ × α) :=
  m.filter (fun p => !(p.1 == k))

theorem lookupA_insertA_self {κ α : Type} [BEq κ] [LawfulBEq κ]
    (m : List (κ × α)) (k : κ) (v : α) : lookupA (insertA m k v) k = some v := by
  simp [lookupA, insertA]

theorem lookupA_eraseA_self {κ α : Type} [BEq κ] [LawfulBEq κ]
    (m : List (κ × α)) (k : κ) : lookupA (eraseA m k) k = none := by
  have hfind : List.find? (fun p => p.1 == k)
      (List.filter (fun p => !(p.1 == k)) m) = none := by
    rw [List.find?_eq_none]
    intro x hx
    have := (List.mem_filter.1 hx).2
    simpa using this
  simp [lookupA, eraseA, hfind]

/-- `WalletType` from the shared wallet types. -/
inductive WalletType where
  | hd
  | privateKey
  | keystore
  | multisig
  | watch
  | dev
deriving DecidableEq, Repr

/-- `EncryptedWallet` (a stored coldkey). -/
structure EncryptedWallet where
  id : String
  version : Nat
  type : WalletType
  name : String
  address : String
  encrypted : EncryptedPackage
  derivationPath : Option String
  keystorePassword : Option EncryptedPackage
  createdAt : Nat
  updatedAt : Nat
deriving DecidableEq, Repr

/-- `WalletStoreSettings`. -/
structure WalletStoreSettings where
  autoLockTimeout : Nat
  requirePasswordOnSend : Bool
  showTestNetworks : Bool
deriving DecidableEq, Repr

/-- `WalletStore`: the persisted vault. -/
structure WalletStore where
  version : Nat
  wallets : List EncryptedWallet
  activeWalletId : Option String
  settings : WalletStoreSettings
deriving DecidableEq, Repr

/-- `EncryptedHotkey`. -/
structure EncryptedHotkey where
  id : String
  name : String
  address : String
  coldkeyId : String
  encrypted : EncryptedPackage
  registeredNeuronets : List Nat
  createdAt : Nat
  backedUp : Bool
deriving DecidableEq, Repr

/-- Rate-limiting record `{count, lastAttempt}` per wallet id. -/
structure UnlockAttempt where
  count : Nat
  lastAttempt : Nat
deriving DecidableEq, Repr

/-- The polkadot `KeyringPair`, modelled by what it was derived from
(`addFromUri` / `addFromSeed` / `addFromJson` + `decodePkcs8`). -/
inductive KeyringPair where
  | fromUri (uri : String)
  | fromSeed (seed : Bytes)
  | fromJson (json : String) (password : String)
deriving DecidableEq, Repr

/-- The persisted lock-state flag `{isLocked, lastUnlockedAt}`. -/
structure LockState where
  isLocked : Bool
  lastUnlockedAt : Option Nat
deriving DecidableEq, Repr

/-- The mutable state of `WalletService` together with the persisted stores it
reads and writes. -/
structure WalletServiceState where
  walletStore : WalletStore
  hotkeyStore : List EncryptedHotkey
  unlockedWallets : List (String × KeyringPair)
  unlockedHotkeys : List (String × KeyringPair)
  unlockAttempts : List (String × UnlockAttempt)
  lockState : LockState
deriving DecidableEq, Repr

/-- One hexadecimal digit of `@polkadot/util`'s `hexToU8a` input. -/
def hexDigit? (c : Char) : Option Nat :=
  if '0' ≤ c ∧ c ≤ '9' then some (c.toNat - '0'.toNat)
  else if 'a' ≤ c ∧ c ≤ 'f' then some (c.toNat - 'a'.toNat + 10)
  else if 'A' ≤ c ∧ c ≤ 'F' then some (c.toNat - 'A'.toNat + 10)
  else none

def hexPairsToBytes : List Char → Option Bytes
  | [] => some []
  | [_] => none
  | c1 :: c2 :: rest =>
    match hexDigit? c1, hexDigit? c2, hexPairsToBytes rest with
    | some h, some l, some tail => some ((16 * h + l) :: tail)
    | _, _, _ => none

/-- `hexToU8a(hex)` of `@polkadot/util` (external): decode a possibly
`0x`-prefixed hex string; failure on malformed input. -/
def hexToU8a (s : String) : Option Bytes :=
  hexPairsToBytes (if s.startsWith "0x" then s.data.drop 2 else s.data)

/-- `store.wallets.find((w) => w.id === walletId)`. -/
def findWallet (st : WalletServiceState) (walletId : String) :
    Option EncryptedWallet :=
  st.walletStore.wallets.find? (fun w => w.id == walletId)

/-- The body of `unlockWallet`'s `try` block after a successful `decrypt`:
derive the signing pair according to the wallet type.  `none` means the block
threw (bad decrypt, malformed key, missing keystore password, unknown type)
and control reaches the `catch`. -/
def tryUnlockPair (wallet : EncryptedWallet) (password : String) :
    Option KeyringPair :=
  match decrypt wallet.encrypted password with
  | none => none
  | some decrypted =>
    match wallet.type with
    | .hd => some (.fromUri (decrypted ++ wallet.derivationPath.getD ""))
    | .privateKey =>
      match hexToU8a decrypted with
      | some bytes => some (.fromSeed (bytes.take 32))
      | none => none
    | .keystore =>
      match wallet.keystorePassword with
      | none => none
      | some kp =>
        match decrypt kp password with
        | none => none
        | some keystorePass => some (.fromJson decrypted keystorePass)
    | _ => none

/-- The rate-limit record `unlockWallet` works with: the stored record (or a
fresh `{count: 0, lastAttempt: 0}`), with `count` zeroed when more than 15
minutes have passed since the last failed attempt. -/
def adjustedAttempt (st : WalletServiceState) (walletId : String) (now : Nat) :
    UnlockAttempt :=
  let a0 := (lookupA st.unlockAttempts walletId).getD ⟨0, 0⟩
  if now - a0.lastAttempt > 15 * 60 * 1000 then { a0 with count := 0 } else a0

/-- `unlockWallet(walletId, password)` at time `now` (`Date.now()`).
Because `attempts` aliases the object stored in the map, the in-window zeroing
writes through to the map exactly when the record existed. -/
def unlockWallet (st : WalletServiceState) (walletId password : String)
    (now : Nat) : Except String Bool × WalletServiceState :=
  let stored := lookupA st.unlockAttempts walletId
  let a1 := adjustedAttempt st walletId now
  let attempts1 :=
    if stored.isSome then insertA st.unlockAttempts walletId a1
    else st.unlockAttempts
  let st1 := { st with unlockAttempts := attempts1 }
  if a1.count ≥ 5 then
    (.error "Too many failed attempts. Please wait 15 minutes.", st1)
  else
    match findWallet st walletId with
    | none => (.error "Wallet not found", st1)
    | some wallet =>
      if wallet.type = .watch ∨ wallet.type = .multisig then (.ok true, st1)
      else
        match tryUnlockPair wallet password with
        | some pair =>
          (.ok true, { st1 with
            unlockedWallets := insertA st1.unlockedWallets walletId pair,
            unlockAttempts := eraseA attempts1 walletId,
            lockState := ⟨false, some now⟩ })
        | none =>
          (.ok false, { st1 with
            unlockAttempts := insertA attempts1 walletId ⟨a1.count + 1, now⟩ })

/-- `isUnlocked(walletId)`. -/
def isUnlocked (st : WalletServiceState) (walletId : String) : Bool :=
  (lookupA st.unlockedWallets walletId).isSome

/-- `getKeypair(walletId)` (`|| null` becomes `Option`). -/
def getKeypair (st : WalletServiceState) (walletId : String) :
    Option KeyringPair :=
  lookupA st.unlockedWallets walletId

/-- `deleteWallet(walletId)`: drop the wallet, its cached session and every
hotkey whose `coldkeyId` matches; `store.wallets[0]?.id || null` makes an
empty-string id fall back to `null`. -/
def deleteWallet (st : WalletServiceState) (walletId : String) :
    WalletServiceState :=
  let wallets' := st.walletStore.wallets.filter (fun w => !(w.id == walletId))
  let unlocked' := eraseA st.unlockedWallets walletId
  let active' :=
    if st.walletStore.activeWalletId = some walletId then
      match wallets'.head? with
      | some w => if w.id = "" then none else some w.id
      | none => none
    else st.walletStore.activeWalletId
  let hotkeys' := st.hotkeyStore.filter (fun hk => !(hk.coldkeyId == walletId))
  { st with
    walletStore := { st.walletStore with
      wallets := wallets', activeWalletId := active' },
    unlockedWallets := unlocked',
    hotkeyStore := hotkeys' }

/-- Replace the first element satisfying `p` (JS `Array.prototype.find`
returns a reference that the source then mutates in place). -/
def updateFirst {α : Type} (p : α → Bool) (f : α → α) : List α → List α
  | [] => []
  | x :: xs => if p x then f x :: xs else x :: updateFirst p f xs

/-- The `for (const hotkey of hotkeys)` loop of `changePassword`: every hotkey
of the coldkey whose secret decrypts under the current password is
re-encrypted under the new one; a hotkey that fails to decrypt is skipped
(`catch { /* Hotkey might use different password, skip */ }`); hotkeys of
other coldkeys are untouched.  `fresh i` supplies the salt/iv randomness for
the `i`-th hotkey's re-encryption. -/
def reencryptHotkeys (walletId curPw newPw : String)
    (fresh : Nat → Bytes × Bytes) :
    List EncryptedHotkey → Nat → List EncryptedHotkey
  | [], _ => []
  | hk :: rest, i =>
    (if hk.coldkeyId == walletId then
      match decrypt hk.encrypted curPw with
      | some m =>
        { hk with encrypted := encrypt m newPw (fresh i).1 (fresh i).2 }
      | none => hk
    else hk) :: reencryptHotkeys walletId curPw newPw fresh rest (i + 1)

/-- `changePassword(walletId, currentPassword, newPassword)` at time `now`;
`saltC`/`ivC` are the randomness for the coldkey's re-encryption and `fresh`
the randomness for the hotkeys'.  The method returns `void`: on success the
caller only sees `ok ()`, without any list of skipped hotkeys. -/
def changePassword (st : WalletServiceState)
    (walletId currentPassword newPassword : String)
    (saltC ivC : Bytes) (fresh : Nat → Bytes × Bytes) (now : Nat) :
    Except String Unit × WalletServiceState :=
  match findWallet st walletId with
  | none => (.error "Wallet not found", st)
  | some wallet =>
    if wallet.type = .watch ∨ wallet.type = .multisig then
      (.error "Cannot change password for this wallet type", st)
    else
      match decrypt wallet.encrypted currentPassword with
      | none => (.error "Current password is incorrect", st)
      | some decrypted =>
        let wallets' := updateFirst (fun w => w.id == walletId)
          (fun w => { w with
            encrypted := encrypt decrypted newPassword saltC ivC,
            updatedAt := now })
          st.walletStore.wallets
        let hotkeys' := reencryptHotkeys walletId currentPassword newPassword
          fresh st.hotkeyStore 0
        (.ok (), { st with
          walletStore := { st.walletStore with wallets := wallets' },
          hotkeyStore := hotkeys' })

/-! ### Claim C3: unlock rate limiting -/

/-- C3: (i) a wrong-password attempt while the (window-adjusted) failure count
is below 5 performs the decryption attempt, fails normally with `false`, and
stores the incremented count stamped with the attempt time; (ii) once the
adjusted count has reached 5, the attempt fails immediately with the
rate-limit error and its outcome does not depend on the password at all (no
decryption is attempted); (iii) `unlockWallet` never modifies the wallet
store, so the stored ciphertext is untouched; (iv) the failure counter is
read as 0 once more than 15 minutes have elapsed since the last failed
attempt; (v) a successful unlock returns `true` and deletes the failure
record for that id. -/
theorem aetron_C3_unlock_rate_limit :
    (∀ (st : WalletServiceState) (walletId password : String) (now : Nat)
      (wallet : EncryptedWallet),
      findWallet st walletId = some wallet →
      ¬(wallet.type = .watch ∨ wallet.type = .multisig) →
      tryUnlockPair wallet password = none →
      (adjustedAttempt st walletId now).count < 5 →
      (unlockWallet st walletId password now).1 = .ok false ∧
      lookupA (unlockWallet st walletId password now).2.unlockAttempts walletId
        = some ⟨(adjustedAttempt st walletId now).count + 1, now⟩) ∧
    (∀ (st : WalletServiceState) (walletId password : String) (now : Nat),
      5 ≤ (adjustedAttempt st walletId now).count →
      (unlockWallet st walletId password now).1
        = .error "Too many failed attempts. Please wait 15 minutes." ∧
      ∀ password', unlockWallet st walletId password now
        = unlockWallet st walletId password' now) ∧
    (∀ (st : WalletServiceState) (walletId password : String) (now : Nat),
      (unlockWallet st walletId password now).2.walletStore = st.walletStore) ∧
    (∀ (st : WalletServiceState) (walletId : String) (now : Nat)
      (a : UnlockAttempt),
      lookupA st.unlockAttempts walletId = some a →
      now - a.lastAttempt > 15 * 60 * 1000 →
      (adjustedAttempt st walletId now).count = 0) ∧
    (∀ (st : WalletServiceState) (walletId password : String) (now : Nat)
      (wallet : EncryptedWallet) (pair : KeyringPair),
      findWallet st walletId = some wallet →
      ¬(wallet.type = .watch ∨ wallet.type = .multisig) →
      tryUnlockPair wallet password = some pair →
      (adjustedAttempt st walletId now).count < 5 →
      (unlockWallet st walletId password now).1 = .ok true ∧
      lookupA (unlockWallet st walletId password now).2.unlockAttempts walletId
        = none) := by
  refine ⟨?_, ?_, ?_, ?_, ?_⟩
  · intro st walletId password now wallet hfind htype htry hlt
    have hge : ¬ 5 ≤ (adjustedAttempt st walletId now).count :=
      Nat.not_le.mpr hlt
    constructor
    · simp [unlockWallet, hfind, htry, hge, htype]
    · simp [unlockWallet, hfind, htry, hge, htype, lookupA_insertA_self]
  · intro st walletId password now hge
    constructor
    · simp [unlockWallet, hge]
    · intro password'
      simp [unlockWallet, hge]
  · intro st walletId password now
    simp only [unlockWallet]
    split
    · rfl
    · split
      · rfl
      · split
        · rfl
        · split
          · rfl
          · rfl
  · intro st walletId now a hlook hwin
    simp [adjustedAttempt, hlook, hwin]
  · intro st walletId password now wallet pair hfind htype htry hlt
    have hge : ¬ 5 ≤ (adjustedAttempt st walletId now).count :=
      Nat.not_le.mpr hlt
    constructor
    · simp [unlockWallet, hfind, htry, hge, htype]
    · simp [unlockWallet, hfind, htry, hge, htype, lookupA_eraseA_self]

/-- A sample hd coldkey encrypted under password `"pw"`. -/
def sampleWallet : EncryptedWallet :=
  { id := "w1", version := 1, type := .hd, name := "Main", address := "5F"
    encrypted := encrypt "seed phrase" "pw" (List.replicate 32 1)
      (List.replicate 12 2)
    derivationPath := none, keystorePassword := none
    createdAt := 0, updatedAt := 0 }

/-- A sample service state holding only `sampleWallet`, fully locked. -/
def sampleState : WalletServiceState :=
  { walletStore :=
      { version := 1, wallets := [sampleWallet], activeWalletId := some "w1"
        settings := ⟨5, false, false⟩ }
    hotkeyStore := [], unlockedWallets := [], unlockedHotkeys := []
    unlockAttempts := [], lockState := ⟨true, none⟩ }

/-- Witness for C3: a wrong-password attempt fails with `false`; with the
counter at 5 inside the window, the attempt is rejected with the rate-limit
error; more than 15 minutes later the counter reads 0 again; the correct
password unlocks. -/
theorem aetron_C3_unlock_rate_limit_witness :
    (unlockWallet sampleState "w1" "wrong" 100).1 = .ok false ∧
    (unlockWallet
      { sampleState with unlockAttempts := [("w1", ⟨5, 100⟩)] }
      "w1" "wrong" 200).1
      = .error "Too many failed attempts. Please wait 15 minutes." ∧
    (adjustedAttempt
      { sampleState with unlockAttempts := [("w1", ⟨5, 100⟩)] }
      "w1" 1000000).count = 0 ∧
    (unlockWallet sampleState "w1" "pw" 100).1 = .ok true := by
  refine ⟨?_, ?_, ?_, ?_⟩
  · exact (aetron_C3_unlock_rate_limit.1 sampleState "w1" "wrong" 100
      sampleWallet (by decide) (by decide) (by decide) (by decide)).1
  · exact (aetron_C3_unlock_rate_limit.2.1
      { sampleState with unlockAttempts := [("w1", ⟨5, 100⟩)] }
      "w1" "wrong" 200 (by decide)).1
  · exact aetron_C3_unlock_rate_limit.2.2.2.1
      { sampleState with unlockAttempts := [("w1", ⟨5, 100⟩)] }
      "w1" 1000000 ⟨5, 100⟩ (by decide) (by decide)
  · exact (aetron_C3_unlock_rate_limit.2.2.2.2 sampleState "w1" "pw" 100
      sampleWallet (.fromUri "seed phrase") (by decide) (by decide) (by decide)
      (by decide)).1

/-! ### Claim C10: watch and multisig wallets "unlock" vacuously -/

/-- C10: for a wallet of type `watch` or `multisig` (below the rate limit),
`unlockWallet` returns `true` for any password, without attempting decryption
(the outcome does not depend on the password) and without caching any signing
capability, so if the id was not unlocked before, `isUnlocked` still returns
`false` and `getKeypair` still returns `null` afterwards. -/
theorem aetron_C10_watch_multisig_unlock :
    ∀ (st : WalletServiceState) (walletId password : String) (now : Nat)
      (wallet : EncryptedWallet),
      findWallet st walletId = some wallet →
      (wallet.type = .watch ∨ wallet.type = .multisig) →
      (adjustedAttempt st walletId now).count < 5 →
      (unlockWallet st walletId password now).1 = .ok true ∧
      (unlockWallet st walletId password now).2.unlockedWallets
        = st.unlockedWallets ∧
      (∀ password', unlockWallet st walletId password now
        = unlockWallet st walletId password' now) ∧
      (lookupA st.unlockedWallets walletId = none →
        isUnlocked (unlockWallet st walletId password now).2 walletId = false ∧
        getKeypair (unlockWallet st walletId password now).2 walletId
          = none) := by
  intro st walletId password now wallet hfind htype hlt
  have hge : ¬ 5 ≤ (adjustedAttempt st walletId now).count :=
    Nat.not_le.mpr hlt
  refine ⟨?_, ?_, ?_, ?_⟩
  · simp [unlockWallet, hfind, htype, hge]
  · simp [unlockWallet, hfind, htype, hge]
  · intro password'
    simp [unlockWallet, hfind, htype, hge]
  · intro hnone
    constructor
    · simp [isUnlocked, unlockWallet, hfind, htype, hge, hnone]
    · simp [getKeypair, unlockWallet, hfind, htype, hge, hnone]

/-- A sample watch-only wallet; its `encrypted` field is under `"pw"` but is
never consulted by `unlockWallet`. -/
def sampleWatchWallet : EncryptedWallet :=
  { sampleWallet with id := "w2", type := .watch, address := "5G" }

/-- A sample state holding only the watch wallet. -/
def sampleWatchState : WalletServiceState :=
  { sampleState with
    walletStore := { sampleState.walletStore with
      wallets := [sampleWatchWallet], activeWalletId := some "w2" } }

/-- Witness for C10 at the concrete watch wallet and an arbitrary password. -/
theorem aetron_C10_watch_multisig_unlock_witness :
    (unlockWallet sampleWatchState "w2" "anything" 50).1 = .ok true ∧
    isUnlocked (unlockWallet sampleWatchState "w2" "anything" 50).2 "w2"
      = false ∧
    getKeypair (unlockWallet sampleWatchState "w2" "anything" 50).2 "w2"
      = none := by
  have h := aetron_C10_watch_multisig_unlock sampleWatchState "w2" "anything"
    50 sampleWatchWallet (by decide) (by decide) (by decide)
  exact ⟨h.1, (h.2.2.2 (by decide)).1, (h.2.2.2 (by decide)).2⟩

/-! ### Claim C7: coldkey deletion cascades -/

/-- C7: for a coldkey present in the vault, `deleteWallet` removes it, clears
its cached unlock session, and removes every hotkey whose `coldkeyId` equals
the deleted id; afterwards no hotkey referencing it remains. -/
theorem aetron_C7_delete_cascades :
    ∀ (st : WalletServiceState) (walletId : String),
      (findWallet st walletId).isSome →
      findWallet (deleteWallet st walletId) walletId = none ∧
      lookupA (deleteWallet st walletId).unlockedWallets walletId = none ∧
      ∀ hk ∈ (deleteWallet st walletId).hotkeyStore,
        hk.coldkeyId ≠ walletId := by
  intro st walletId _
  refine ⟨?_, lookupA_eraseA_self _ _, ?_⟩
  · simp only [findWallet, deleteWallet]
    rw [List.find?_eq_none]
    intro w hw
    have := (List.mem_filter.1 hw).2
    simpa using this
  · intro hk hmem
    have := (List.mem_filter.1 hmem).2
    simpa using this

/-- Witness for C7 at the sample state with one cached session and two
hotkeys, one of which references the deleted coldkey. -/
theorem aetron_C7_delete_cascades_witness :
    findWallet (deleteWallet sampleState "w1") "w1" = none ∧
    lookupA (deleteWallet sampleState "w1").unlockedWallets "w1" = none :=
  have h := aetron_C7_delete_cascades sampleState "w1" (by decide)
  ⟨h.1, h.2.1⟩

/-! ### Claim C6: password change (corrected)

The source's `changePassword` returns `Promise<void>`: hotkeys that fail to
decrypt under the current password are skipped inside a swallowed `catch` and
no list of skipped ids ever reaches the caller. -/

theorem find?_updateFirst {α : Type} (p : α → Bool) (f : α → α)
    (hf : ∀ a, p a = true → p (f a) = true) :
    ∀ (l : List α) (x : α), l.find? p = some x →
      (updateFirst p f l).find? p = some (f x) := by
  intro l
  induction l with
  | nil => intro x hx; simp at hx
  | cons y ys ih =>
    intro x hx
    by_cases hp : p y = true
    · rw [List.find?_cons_of_pos _ hp] at hx
      injection hx with hx
      subst hx
      simp only [updateFirst, hp, if_true]
      exact List.find?_cons_of_pos _ (hf _ hp)
    · rw [List.find?_cons_of_neg _ hp] at hx
      simp only [updateFirst, hp, if_false, Bool.false_eq_true]
      rw [List.find?_cons_of_neg _ hp]
      exact ih x hx

/-- Pointwise behaviour of the hotkey re-encryption loop. -/
theorem reencryptHotkeys_spec (walletId curPw newPw : String)
    (fresh : Nat → Bytes × Bytes) :
    ∀ (l : List EncryptedHotkey) (i : Nat),
      List.Forall₂ (fun hk hk' =>
        (hk.coldkeyId ≠ walletId → hk' = hk) ∧
        (hk.coldkeyId = walletId → decrypt hk.encrypted curPw = none →
          hk' = hk) ∧
        (∀ mh, hk.coldkeyId = walletId →
          decrypt hk.encrypted curPw = some mh →
          hk'.id = hk.id ∧ hk'.coldkeyId = hk.coldkeyId ∧
          hk'.name = hk.name ∧ hk'.address = hk.address ∧
          decrypt hk'.encrypted newPw = some mh))
        l (reencryptHotkeys walletId curPw newPw fresh l i) := by
  intro l
  induction l with
  | nil => intro i; exact List.Forall₂.nil
  | cons hk rest ih =>
    intro i
    refine List.Forall₂.cons ?_ (ih (i + 1))
    by_cases hc : hk.coldkeyId = walletId
    · have hcb : (hk.coldkeyId == walletId) = true := by simpa using hc
      cases hdec : decrypt hk.encrypted curPw with
      | none =>
        refine ⟨fun hne => absurd hc hne, fun _ _ => ?_, fun mh _ hmh => ?_⟩
        · simp [hcb]
        · exact absurd hmh (by simp)
      | some m =>
        refine ⟨fun hne => absurd hc hne, fun _ hnone => ?_,
          fun mh _ hmh => ?_⟩
        · exact absurd hnone (by simp)
        · injection hmh with hmh
          subst hmh
          simp only [hcb, if_true]
          refine ⟨?_, ?_, ?_, ?_, decrypt_encrypt_same _ _ _ _⟩ <;> trivial
    · have hcb : (hk.coldkeyId == walletId) = false := by simpa using hc
      refine ⟨fun _ => ?_, fun h _ => absurd h hc, fun mh h _ => absurd h hc⟩
      simp [hcb]

/-- C6 (amended): `changePassword` fails closed — with no state change — when
the current password does not decrypt the coldkey; on success it re-encrypts
the coldkey secret under the new password and best-effort re-encrypts every
hotkey of that coldkey whose secret decrypts under the current password,
leaving hotkeys under a different password untouched — but it surfaces
nothing to the caller: the success value is the bare `ok ()`, with no
partial-success list of skipped hotkey ids. -/
theorem aetron_C6_change_password (st : WalletServiceState)
    (walletId currentPassword newPassword : String)
    (saltC ivC : Bytes) (fresh : Nat → Bytes × Bytes) (now : Nat)
    (wallet : EncryptedWallet)
    (hfind : findWallet st walletId = some wallet)
    (htype : ¬(wallet.type = .watch ∨ wallet.type = .multisig)) :
    (decrypt wallet.encrypted currentPassword = none →
      changePassword st walletId currentPassword newPassword saltC ivC fresh
        now = (.error "Current password is incorrect", st)) ∧
    (∀ m, decrypt wallet.encrypted currentPassword = some m →
      (changePassword st walletId currentPassword newPassword saltC ivC fresh
        now).1 = .ok () ∧
      findWallet (changePassword st walletId currentPassword newPassword saltC
        ivC fresh now).2 walletId
        = some { wallet with
            encrypted := encrypt m newPassword saltC ivC, updatedAt := now } ∧
      decrypt (encrypt m newPassword saltC ivC) newPassword = some m ∧
      List.Forall₂ (fun hk hk' =>
        (hk.coldkeyId ≠ walletId → hk' = hk) ∧
        (hk.coldkeyId = walletId →
          decrypt hk.encrypted currentPassword = none → hk' = hk) ∧
        (∀ mh, hk.coldkeyId = walletId →
          decrypt hk.encrypted currentPassword = some mh →
          hk'.id = hk.id ∧ hk'.coldkeyId = hk.coldkeyId ∧
          hk'.name = hk.name ∧ hk'.address = hk.address ∧
          decrypt hk'.encrypted newPassword = some mh))
        st.hotkeyStore
        (changePassword st walletId currentPassword newPassword saltC ivC fresh
          now).2.hotkeyStore) := by
  constructor
  · intro hnone
    simp [changePassword, hfind, htype, hnone]
  · intro m hm
    have hid : ∀ w : EncryptedWallet, (w.id == walletId) = true →
        (({ w with
            encrypted := encrypt m newPassword saltC ivC
            updatedAt := now } : EncryptedWallet).id == walletId) = true := by
      intro w hw; simpa using hw
    have hfind0 : List.find? (fun w => w.id == walletId)
        st.walletStore.wallets = some wallet := hfind
    have hcp : changePassword st walletId currentPassword newPassword saltC
        ivC fresh now
        = (.ok (), { st with
            walletStore := { st.walletStore with
              wallets := updateFirst (fun w => w.id == walletId)
                (fun w => { w with
                  encrypted := encrypt m newPassword saltC ivC
                  updatedAt := now })
                st.walletStore.wallets }
            hotkeyStore := reencryptHotkeys walletId currentPassword
              newPassword fresh st.hotkeyStore 0 }) := by
      simp [changePassword, hfind, htype, hm]
    refine ⟨?_, ?_, decrypt_encrypt_same _ _ _ _, ?_⟩
    · rw [hcp]
    · rw [hcp]
      exact find?_updateFirst (fun w => w.id == walletId)
        (fun w => { w with
          encrypted := encrypt m newPassword saltC ivC
          updatedAt := now }) hid st.walletStore.wallets wallet hfind0
    · rw [hcp]
      exact reencryptHotkeys_spec walletId currentPassword newPassword fresh
        st.hotkeyStore 0

/-- A hotkey of `sampleWallet` encrypted under the coldkey's password. -/
def sampleHotkey1 : EncryptedHotkey :=
  { id := "h1", name := "default", address := "5H1", coldkeyId := "w1"
    encrypted := encrypt "hot1" "pw" (List.replicate 32 3) (List.replicate 12 4)
    registeredNeuronets := [], createdAt := 0, backedUp := false }

/-- A hotkey of `sampleWallet` encrypted under a different password. -/
def sampleHotkey2 : EncryptedHotkey :=
  { id := "h2", name := "other", address := "5H2", coldkeyId := "w1"
    encrypted := encrypt "hot2" "pwB" (List.replicate 32 5)
      (List.replicate 12 6)
    registeredNeuronets := [], createdAt := 0, backedUp := true }

/-- The sample state with both hotkeys attached to the coldkey. -/
def sampleStateBothHotkeys : WalletServiceState :=
  { sampleState with hotkeyStore := [sampleHotkey1, sampleHotkey2] }

/-- The sample state with only the same-password hotkey. -/
def sampleStateOneHotkey : WalletServiceState :=
  { sampleState with hotkeyStore := [sampleHotkey1] }

/-- C6 counterexample: in a vault where hotkey `h2` is encrypted under a
different password, `changePassword` succeeds, skips `h2` (its stored package
is byte-for-byte unchanged and does not decrypt under the new password) — yet
the caller-visible result is the bare `ok ()`, identical to the result of a
run in which nothing was skipped.  No partial-success list of skipped hotkey
ids is surfaced, refuting the claim at this concrete input. -/
theorem aetron_C6_counterexample :
    (changePassword sampleStateBothHotkeys "w1" "pw" "pwNew"
      (List.replicate 32 7) (List.replicate 12 8)
      (fun _ => (List.replicate 32 9, List.replicate 12 10)) 9).1
      = .ok () ∧
    (changePassword sampleStateOneHotkey "w1" "pw" "pwNew"
      (List.replicate 32 7) (List.replicate 12 8)
      (fun _ => (List.replicate 32 9, List.replicate 12 10)) 9).1
      = (changePassword sampleStateBothHotkeys "w1" "pw" "pwNew"
        (List.replicate 32 7) (List.replicate 12 8)
        (fun _ => (List.replicate 32 9, List.replicate 12 10)) 9).1 ∧
    (changePassword sampleStateBothHotkeys "w1" "pw" "pwNew"
      (List.replicate 32 7) (List.replicate 12 8)
      (fun _ => (List.replicate 32 9, List.replicate 12 10)) 9).2.hotkeyStore.find?
      (fun hk => hk.id == "h2") = some sampleHotkey2 ∧
    decrypt sampleHotkey2.encrypted "pwNew" = none := by
  refine ⟨rfl, rfl, by decide, by decide⟩

/-- Witness for the amended C6: wrong current password fails closed; with the
right one the coldkey decrypts under the new password afterwards. -/
theorem aetron_C6_change_password_witness :
    changePassword sampleStateBothHotkeys "w1" "bad" "pwNew"
      (List.replicate 32 7) (List.replicate 12 8)
      (fun _ => (List.replicate 32 9, List.replicate 12 10)) 9
      = (.error "Current password is incorrect", sampleStateBothHotkeys) ∧
    (changePassword sampleStateBothHotkeys "w1" "pw" "pwNew"
      (List.replicate 32 7) (List.replicate 12 8)
      (fun _ => (List.replicate 32 9, List.replicate 12 10)) 9).1 = .ok () := by
  constructor
  · exact (aetron_C6_change_password sampleStateBothHotkeys "w1" "bad" "pwNew"
      (List.replicate 32 7) (List.replicate 12 8)
      (fun _ => (List.replicate 32 9, List.replicate 12 10)) 9 sampleWallet
      (by decide) (by decide)).1 (by decide)
  · exact ((aetron_C6_change_password sampleStateBothHotkeys "w1" "pw" "pwNew"
      (List.replicate 32 7) (List.replicate 12 8)
      (fun _ => (List.replicate 32 9, List.replicate 12 10)) 9 sampleWallet
      (by decide) (by decide)).2 "seed phrase" (by decide)).1

/-! ## Permission and approval broker

From `src/unnamed/part_003` (`DappHandler`): the in-memory pending-approval
map, its 5-minute timeout and `resolveApproval`.  The `resolve`/`reject`
continuations of a `PendingApproval` are modelled as the emitted
`ApprovalOutcome`. -/

/-- A pending approval entry (without its continuations). -/
structure PendingApproval where
  id : Nat
  origin : String
  method : String
deriving DecidableEq, Repr

/-- What happens to the suspended dApp call when an approval is settled. -/
inductive ApprovalOutcome where
  | resolved
  | rejected (message : String)
deriving DecidableEq, Repr

/-- `DappHandler`'s approval state. -/
structure DappState where
  pendingApprovals : List (Nat × PendingApproval)
  nextApprovalId : Nat
deriving DecidableEq, Repr

/-- The `5 * 60 * 1000` ms timeout of `requestApproval`. -/
def APPROVAL_TIMEOUT_MS : Nat := 5 * 60 * 1000

/-- `requestApproval(origin, method, ...)`: register a fresh id
(`this.nextApprovalId++`) and schedule the timeout; returns the new state,
the id and the scheduled delay. -/
def requestApproval (st : DappState) (origin method : String) :
    DappState × Nat × Nat :=
  let id := st.nextApprovalId
  ({ pendingApprovals := insertA st.pendingApprovals id ⟨id, origin, method⟩,
     nextApprovalId := id + 1 }, id, APPROVAL_TIMEOUT_MS)

/-- The timeout callback: if the approval is still pending, reject it with
`Error('Request timeout')` and remove it; otherwise do nothing. -/
def approvalTimerFires (st : DappState) (id : Nat) :
    DappState × Option ApprovalOutcome :=
  match lookupA st.pendingApprovals id with
  | some _ =>
    ({ st with pendingApprovals := eraseA st.pendingApprovals id },
      some (.rejected "Request timeout"))
  | none => (st, none)

/-- `resolveApproval(approvalId, approved, result?)`: a missing id is a no-op
(`if (!pending) return`); otherwise remove the entry and settle the suspended
call. -/
def resolveApproval (st : DappState) (approvalId : Nat) (approved : Bool) :
    DappState × Option ApprovalOutcome :=
  match lookupA st.pendingApprovals approvalId with
  | none => (st, none)
  | some _ =>
    ({ st with pendingApprovals := eraseA st.pendingApprovals approvalId },
      some (if approved then .resolved else .rejected "User rejected"))

/-! ### Claim C9: approval timeout and idempotent resolution -/

/-- C9: `requestApproval` registers the entry under a fresh id and schedules
its rejection after exactly 5 minutes (300000 ms); when the timer fires on a
still-pending id the approval is rejected with the timeout error and removed
from the map; resolving or rejecting an id that is no longer in the map is a
no-op with no state change and no emitted outcome — in particular any later
timer fire or second resolution of an already-settled id does nothing. -/
theorem aetron_C9_approval_timeout :
    (∀ (st : DappState) (origin method : String),
      (requestApproval st origin method).2.1 = st.nextApprovalId ∧
      (requestApproval st origin method).2.2 = 300000 ∧
      lookupA (requestApproval st origin method).1.pendingApprovals
        st.nextApprovalId = some ⟨st.nextApprovalId, origin, method⟩ ∧
      (requestApproval st origin method).1.nextApprovalId
        = st.nextApprovalId + 1) ∧
    (∀ (st : DappState) (id : Nat) (p : PendingApproval),
      lookupA st.pendingApprovals id = some p →
      approvalTimerFires st id
        = ({ st with pendingApprovals := eraseA st.pendingApprovals id },
          some (.rejected "Request timeout")) ∧
      lookupA (approvalTimerFires st id).1.pendingApprovals id = none) ∧
    (∀ (st : DappState) (id : Nat) (approved : Bool),
      lookupA st.pendingApprovals id = none →
      resolveApproval st id approved = (st, none)) ∧
    (∀ (st : DappState) (id : Nat) (approved approved' : Bool)
      (p : PendingApproval),
      lookupA st.pendingApprovals id = some p →
      lookupA (resolveApproval st id approved).1.pendingApprovals id = none ∧
      approvalTimerFires (resolveApproval st id approved).1 id
        = ((resolveApproval st id approved).1, none) ∧
      resolveApproval (resolveApproval st id approved).1 id approved'
        = ((resolveApproval st id approved).1, none)) := by
  refine ⟨?_, ?_, ?_, ?_⟩
  · intro st origin method
    exact ⟨rfl, rfl, lookupA_insertA_self _ _ _, rfl⟩
  · intro st id p hp
    constructor
    · simp [approvalTimerFires, hp]
    · simp [approvalTimerFires, hp, lookupA_eraseA_self]
  · intro st id approved hnone
    simp [resolveApproval, hnone]
  · intro st id approved approved' p hp
    have hres : (resolveApproval st id approved).1
        = { st with pendingApprovals := eraseA st.pendingApprovals id } := by
      simp [resolveApproval, hp]
    have hafter : lookupA (resolveApproval st id approved).1.pendingApprovals
        id = none := by
      rw [hres]
      exact lookupA_eraseA_self _ _
    refine ⟨hafter, ?_, ?_⟩
    · rw [hres]
      simp [approvalTimerFires, lookupA_eraseA_self]
    · rw [hres]
      simp [resolveApproval, lookupA_eraseA_self]

/-- Witness for C9 at a concrete approval: registered under id 1, timed out
with the timeout rejection, and a later resolution of the same id is a
no-op. -/
theorem aetron_C9_approval_timeout_witness :
    (requestApproval ⟨[], 1⟩ "https://dapp.example" "signMessage").2.2
      = 300000 ∧
    approvalTimerFires ⟨[(1, ⟨1, "https://dapp.example", "signMessage"⟩)], 2⟩ 1
      = (⟨[], 2⟩, some (.rejected "Request timeout")) ∧
    resolveApproval ⟨[], 2⟩ 1 true = (⟨[], 2⟩, none) := by
  refine ⟨?_, ?_, ?_⟩
  · exact (aetron_C9_approval_timeout.1 ⟨[], 1⟩ "https://dapp.example"
      "signMessage").2.1
  · have h := (aetron_C9_approval_timeout.2.1
      ⟨[(1, ⟨1, "https://dapp.example", "signMessage"⟩)], 2⟩ 1
      ⟨1, "https://dapp.example", "signMessage"⟩ (by decide)).1
    simpa using h
  · exact aetron_C9_approval_timeout.2.2.1 ⟨[], 2⟩ 1 true (by decide)

end Aetron
